import Mathlib

/-!
Shallow embedding of the Filigran CLA bot (TypeScript sources:
`src/routes/github.ts` (GitHub webhook route: pull-request reconciler and
`/cla resend` command handler), `src/routes/concord.ts` (Concord webhook
route: agreement-completion reconciler), `src/services/database.ts`
(SQLite record store)).

External services (GitHub API, Concord API) are modelled as oracles: each
outbound call's result is an input to the handler, and the calls a handler
performs are recorded as an effect trace.  Database mutations are state
transitions on an explicit store value.
-/

namespace CLA

/-- `CLAStatus` from `src/types.ts`: `'pending' | 'signed' | 'expired' | 'cancelled'`. -/
inductive CLAStatus where
  | pending
  | signed
  | expired
  | cancelled
deriving DecidableEq, Repr

/-- `CLARecord` from `src/types.ts` / the `cla_records` table
(`id`, `created_at`, `updated_at` omitted: no claim mentions them). -/
structure CLARecord where
  github_username : String
  github_user_id : Nat
  github_email : Option String
  concord_agreement_uid : String
  signed_at : Option String
  status : CLAStatus
deriving DecidableEq, Repr

/-- `PRRecord` from `src/types.ts` / the `pr_records` table. -/
structure PRRecord where
  repo_full_name : String
  pr_number : Nat
  github_username : String
  github_user_id : Nat
  comment_id : Option Nat
  concord_agreement_uid : Option String
deriving DecidableEq, Repr

/-- The record store: the two tables created by `initDatabase`. -/
structure Store where
  cla_records : List CLARecord
  pr_records : List PRRecord
deriving DecidableEq, Repr

/-! ### JavaScript truthiness coercion used at the SQL boundary

`createPRRecord` binds `record.comment_id || null` and
`record.concord_agreement_uid || null`; `createCLARecord` binds
`record.github_email || null`; `updateCLAStatus*` bind `signedAt || null`.
`x || null` maps any falsy value (absent, `0`, `''`) to SQL NULL. -/

/-- `x || null` for an optional number. -/
def jsOrNullNat : Option Nat → Option Nat
  | some n => if n = 0 then none else some n
  | none => none

/-- `x || null` for an optional string. -/
def jsOrNullStr : Option String → Option String
  | some s => if s = "" then none else some s
  | none => none

/-! ### CLA record operations (`src/services/database.ts`) -/

/-- `findCLAByGitHubUserId`: `SELECT * FROM cla_records WHERE github_user_id = ?`. -/
def findCLAByGitHubUserId (db : Store) (githubUserId : Nat) : Option CLARecord :=
  db.cla_records.find? (fun r => r.github_user_id = githubUserId)

/-- `findCLAByAgreementUid`: `SELECT * FROM cla_records WHERE concord_agreement_uid = ?`. -/
def findCLAByAgreementUid (db : Store) (agreementUid : String) : Option CLARecord :=
  db.cla_records.find? (fun r => r.concord_agreement_uid = agreementUid)

/-- Input row for `createCLARecord` (`Omit<CLARecord, 'id' | 'created_at' | 'updated_at'>`). -/
structure CLAInsert where
  github_username : String
  github_user_id : Nat
  github_email : Option String
  concord_agreement_uid : String
  signed_at : Option String
  status : CLAStatus
deriving DecidableEq, Repr

/-- `createCLARecord`: `INSERT INTO cla_records (github_username, github_user_id,
github_email, concord_agreement_uid, status) VALUES (?,?,?,?,?) ON
CONFLICT(github_user_id) DO UPDATE SET concord_agreement_uid =
excluded.concord_agreement_uid, status = excluded.status, updated_at = ...`.
The insert column list has no `signed_at`, so a fresh row gets NULL there and the
caller-supplied `signed_at` field is ignored; the conflict update touches only
the agreement uid and the status. -/
def createCLARecord (db : Store) (record : CLAInsert) : Store :=
  if (findCLAByGitHubUserId db record.github_user_id).isSome then
    { db with
      cla_records := db.cla_records.map (fun r =>
        if r.github_user_id = record.github_user_id then
          { r with
            concord_agreement_uid := record.concord_agreement_uid
            status := record.status }
        else r) }
  else
    { db with
      cla_records := db.cla_records ++
        [{ github_username := record.github_username
           github_user_id := record.github_user_id
           github_email := jsOrNullStr record.github_email
           concord_agreement_uid := record.concord_agreement_uid
           signed_at := none
           status := record.status }] }

/-- `updateCLAStatusByAgreementUid`: `UPDATE cla_records SET status = ?,
signed_at = ?, updated_at = ... WHERE concord_agreement_uid = ?` with
`stmt.run(status, signedAt || null, agreementUid)` — `signed_at` is
overwritten on every call, to NULL when no `signedAt` argument is given. -/
def updateCLAStatusByAgreementUid (db : Store) (agreementUid : String)
    (status : CLAStatus) (signedAt : Option String) : Store :=
  { db with
    cla_records := db.cla_records.map (fun r =>
      if r.concord_agreement_uid = agreementUid then
        { r with status := status, signed_at := jsOrNullStr signedAt }
      else r) }

/-- `deleteCLAByGitHubUserId`.  Modelled from the spec: the database service
shipped under `src/` does not contain this function (it is called by the
`/cla resend` handler), and §4.3 of the spec says "delete the local
ContributorAgreement" — a delete of the row keyed by the platform user id. -/
def deleteCLAByGitHubUserId (db : Store) (githubUserId : Nat) : Store :=
  { db with
    cla_records := db.cla_records.filter (fun r => ¬ r.github_user_id = githubUserId) }

/-! ### PR record operations (`src/services/database.ts`) -/

/-- `findPRRecord`: `SELECT * FROM pr_records WHERE repo_full_name = ? AND
pr_number = ? AND github_user_id = ?`. -/
def findPRRecord (db : Store) (repoFullName : String) (prNumber : Nat)
    (githubUserId : Nat) : Option PRRecord :=
  db.pr_records.find? (fun r =>
    r.repo_full_name = repoFullName ∧ r.pr_number = prNumber ∧
      r.github_user_id = githubUserId)

/-- `findPRRecordsByGitHubUserId`: `SELECT * FROM pr_records WHERE github_user_id = ?`. -/
def findPRRecordsByGitHubUserId (db : Store) (githubUserId : Nat) : List PRRecord :=
  db.pr_records.filter (fun r => r.github_user_id = githubUserId)

/-- Input row for `createPRRecord`. -/
structure PRInsert where
  repo_full_name : String
  pr_number : Nat
  github_username : String
  github_user_id : Nat
  comment_id : Option Nat
  concord_agreement_uid : Option String
deriving DecidableEq, Repr

/-- Whether a stored row matches the (repo, pr, user) triple of an insert. -/
def PRInsert.sameTriple (record : PRInsert) (r : PRRecord) : Prop :=
  r.repo_full_name = record.repo_full_name ∧ r.pr_number = record.pr_number ∧
    r.github_user_id = record.github_user_id

instance (record : PRInsert) (r : PRRecord) : Decidable (record.sameTriple r) := by
  unfold PRInsert.sameTriple; infer_instance

/-- `createPRRecord`: `INSERT INTO pr_records (...) VALUES (?,?,?,?,?,?) ON
CONFLICT(repo_full_name, pr_number, github_user_id) DO UPDATE SET comment_id =
COALESCE(excluded.comment_id, pr_records.comment_id), concord_agreement_uid =
COALESCE(excluded.concord_agreement_uid, pr_records.concord_agreement_uid),
updated_at = ...` with `stmt.run(..., record.comment_id || null,
record.concord_agreement_uid || null)`. -/
def createPRRecord (db : Store) (record : PRInsert) : Store :=
  if (findPRRecord db record.repo_full_name record.pr_number record.github_user_id).isSome then
    { db with
      pr_records := db.pr_records.map (fun r =>
        if record.sameTriple r then
          { r with
            comment_id := (jsOrNullNat record.comment_id).or r.comment_id
            concord_agreement_uid :=
              (jsOrNullStr record.concord_agreement_uid).or r.concord_agreement_uid }
        else r) }
  else
    { db with
      pr_records := db.pr_records ++
        [{ repo_full_name := record.repo_full_name
           pr_number := record.pr_number
           github_username := record.github_username
           github_user_id := record.github_user_id
           comment_id := jsOrNullNat record.comment_id
           concord_agreement_uid := jsOrNullStr record.concord_agreement_uid }] }

/-- `updatePRRecordCommentId`: `UPDATE pr_records SET comment_id = ?, updated_at
= ... WHERE repo_full_name = ? AND pr_number = ? AND github_user_id = ?`. -/
def updatePRRecordCommentId (db : Store) (repoFullName : String) (prNumber : Nat)
    (githubUserId : Nat) (commentId : Nat) : Store :=
  { db with
    pr_records := db.pr_records.map (fun r =>
      if r.repo_full_name = repoFullName ∧ r.pr_number = prNumber ∧
          r.github_user_id = githubUserId then
        { r with comment_id := some commentId }
      else r) }

/-- `updatePRRecordAgreementUid`: `UPDATE pr_records SET concord_agreement_uid
= ?, updated_at = ... WHERE repo_full_name = ? AND pr_number = ? AND
github_user_id = ?`. -/
def updatePRRecordAgreementUid (db : Store) (repoFullName : String) (prNumber : Nat)
    (githubUserId : Nat) (agreementUid : String) : Store :=
  { db with
    pr_records := db.pr_records.map (fun r =>
      if r.repo_full_name = repoFullName ∧ r.pr_number = prNumber ∧
          r.github_user_id = githubUserId then
        { r with concord_agreement_uid := some agreementUid }
      else r) }

/-! ### Observable side effects

Each constructor records one completed outbound call of a handler: GitHub
commit statuses, labels, comments, and Concord (agreement-service) calls.
Comment bodies are abstracted to their kind. -/

/-- The distinct comment bodies the handlers post. -/
inductive CommentKind where
  /-- `createCLAPendingComment`: the pending-signature request comment. -/
  | claPending
  /-- "there was an issue creating your agreement automatically … contact the maintainers". -/
  | creationFailed
  /-- ":email: CLA signing invitation has been resent …". -/
  | resendConfirm
  /-- ":white_check_mark: … has already signed the CLA — no resend needed.". -/
  | alreadySigned
  /-- ":arrows_counterclockwise: A new CLA agreement has been created …". -/
  | newAgreementConfirm
  /-- "Failed to create a new CLA agreement. Please contact the maintainers …". -/
  | resendFailed
deriving DecidableEq, Repr

/-- One completed outbound call. -/
inductive Effect where
  /-- `createCLAStatus`: commit status, `success = true` ⇒ state `success`, else `pending`. -/
  | createStatus (owner repo sha : String) (success : Bool)
  /-- `addCLAPendingLabel`. -/
  | addPendingLabel (owner repo : String) (prNumber : Nat)
  /-- `addCLAExemptLabel`. -/
  | addExemptLabel (owner repo : String) (prNumber : Nat)
  /-- `updateCLALabels`: remove pending label, add signed label. -/
  | updateLabels (owner repo : String) (prNumber : Nat)
  /-- `removeCLAPendingLabel`. -/
  | removePendingLabel (owner repo : String) (prNumber : Nat)
  /-- `createComment` / `createCLAPendingComment`: a PR comment of the given kind. -/
  | createComment (owner repo : String) (prNumber : Nat) (kind : CommentKind)
  /-- `updateCommentCLASigned`. -/
  | updateCommentSigned (owner repo : String) (commentId : Nat)
  /-- `concordService.createAgreementFromTemplate`. -/
  | concordCreateAgreement (email name username repoFullName : String) (prNumber : Nat)
  /-- `concordService.getAgreement`. -/
  | concordGetAgreement (uid : String)
  /-- `concordService.resendCLAInvitation`. -/
  | concordResendInvitation (uid email name username : String)
  /-- `concordService.findExistingCLAByEmail`. -/
  | concordFindExistingByEmail (email : String)
deriving DecidableEq, Repr

/-! ### Configuration (`src/config.ts`) -/

/-- The parts of `config` the handlers read.  `exemptedUsers` is the output of
`parseExemptedUsers`, whose entries are already lower-cased. -/
structure Config where
  exemptedUsers : List String
  skipOrgMemberCheck : Bool

/-- `isUserExempted`: `config.cla.exemptedUsers.includes(username.toLowerCase())`. -/
def isUserExempted (cfg : Config) (username : String) : Bool :=
  cfg.exemptedUsers.contains username.toLower

/-! ### Contributor email resolution (`github.ts` lines 111–130, repeated at 289–301) -/

/-- JS truthiness of a nullable string (`null`, `undefined` and `''` are falsy). -/
def jsTruthyStr : Option String → Bool
  | some s => s ≠ ""
  | none => false

/-- `s.trim()`: strip leading and trailing whitespace. -/
def trimChars (l : List Char) : List Char :=
  ((l.dropWhile Char.isWhitespace).reverse.dropWhile Char.isWhitespace).reverse

/-- `s.toLowerCase()`. -/
def lowerChars (l : List Char) : List Char := l.map Char.toLower

/-- `s.trim().toLowerCase()`. -/
def jsTrimLower (s : String) : String := ⟨lowerChars (trimChars s.toList)⟩

/-- `s.split('/')`: split at every separator occurrence (adjacent separators
produce empty fields, like the JS `String.prototype.split`). -/
def splitChars (sep : Char) : List Char → List (List Char)
  | [] => [[]]
  | c :: cs =>
    if c == sep then [] :: splitChars sep cs
    else
      match splitChars sep cs with
      | [] => [[c]]
      | h :: t => (c :: h) :: t

/-- `repo_full_name.split('/')` as strings. -/
def splitOnSlash (s : String) : List String :=
  (splitChars '/' s.toList).map (fun l => ⟨l⟩)

/-- Whether the first list occurs at the start of the second. -/
def startsWithChars : List Char → List Char → Bool
  | [], _ => true
  | _ :: _, [] => false
  | p :: ps, c :: cs => p == c && startsWithChars ps cs

/-- Whether the first list occurs as a contiguous sublist of the second. -/
def containsChars (pat : List Char) : List Char → Bool
  | [] => startsWithChars pat []
  | c :: cs => startsWithChars pat (c :: cs) || containsChars pat cs

/-- `e.includes('noreply.github.com')`: substring containment. -/
def hasNoreply (e : String) : Bool :=
  containsChars "noreply.github.com".toList e.toList

/-- Email resolution: commit author emails filtered of `noreply.github.com`
addresses with `realEmails[0] || commitEmails[0]`, then the public profile
email, then the `{userId}+{username}@users.noreply.github.com` placeholder.
Each step is guarded by JS truthiness (`if (!userEmail)`). -/
def resolveUserEmail (commitEmails : List String) (profileEmail : Option String)
    (userId : Nat) (username : String) : String :=
  let fromCommits : Option String :=
    match commitEmails with
    | [] => none
    | first :: _ =>
      let realEmails := commitEmails.filter (fun e => !hasNoreply e)
      some (match realEmails.head? with
        | some r => if r = "" then first else r
        | none => first)
  let afterProfile : Option String :=
    if jsTruthyStr fromCommits then fromCommits else profileEmail
  if jsTruthyStr afterProfile then afterProfile.getD ""
  else toString userId ++ "+" ++ username ++ "@users.noreply.github.com"

/-! ### Signature Reconciler (`handlePullRequestEvent`, `github.ts` lines 31–249) -/

/-- The fields of a GitHub user the handlers read. -/
structure GitHubUser where
  id : Nat
  login : String
  name : Option String
deriving DecidableEq, Repr

/-- The fields of a `pull_request` webhook payload the handler reads. -/
structure PullRequestEvent where
  action : String
  repoOwner : String
  repoName : String
  repoFullName : String
  prNumber : Nat
  user : GitHubUser
  headSha : String
  installationId : Option Nat
deriving DecidableEq, Repr

/-- The fields of Concord's agreement object read by the handler. -/
structure ConcordAgreementInfo where
  uid : String
  status : String
  signatureDate : Option Nat
deriving DecidableEq, Repr

/-- Results of the outbound calls `handlePullRequestEvent` can make, supplied
as an oracle. -/
structure PROracle where
  /-- `githubService.isOrganizationMember`. -/
  isOrgMember : Bool
  /-- `githubService.getPRCommitEmails`. -/
  commitEmails : List String
  /-- `githubService.getUserEmail`. -/
  profileEmail : Option String
  /-- `concordService.findExistingCLAByEmail`. -/
  concordExisting : Option ConcordAgreementInfo
  /-- `concordService.createAgreementFromTemplate`: the agreement uid, or a thrown error. -/
  createAgreement : Except Unit String
  /-- Id of the comment returned by `createCLAPendingComment`. -/
  newCommentId : Nat
  /-- `new Date().toISOString()`. -/
  now : String
  /-- `new Date(ms).toISOString()`. -/
  isoOfMillis : Nat → String

/-- `handlePullRequestEvent`: classify the contributor and drive side effects.
Returns the store after processing and the trace of completed outbound calls. -/
def handlePullRequestEvent (cfg : Config) (o : PROracle) (db : Store)
    (ev : PullRequestEvent) : Store × List Effect :=
  if !(ev.action == "opened" || ev.action == "synchronize" || ev.action == "reopened") then
    (db, [])
  else match ev.installationId with
  | none => (db, [])
  | some _ =>
    let owner := ev.repoOwner
    let repo := ev.repoName
    let repoFullName := ev.repoFullName
    let prNumber := ev.prNumber
    let username := ev.user.login
    let userId := ev.user.id
    let sha := ev.headSha
    let isWhitelisted := isUserExempted cfg username
    let isOrgMember := !isWhitelisted && !cfg.skipOrgMemberCheck && o.isOrgMember
    if isWhitelisted || isOrgMember then
      (db, [.createStatus owner repo sha true, .addExemptLabel owner repo prNumber])
    else
    let existingCLA := findCLAByGitHubUserId db userId
    let claSigned := match existingCLA with
      | some c => c.status == CLAStatus.signed
      | none => false
    if claSigned then
      (db, [.createStatus owner repo sha true, .updateLabels owner repo prNumber])
    else
    let prRecord := findPRRecord db repoFullName prNumber userId
    let claPending := match existingCLA with
      | some c => c.status == CLAStatus.pending
      | none => false
    if prRecord.isSome && claPending then
      (db, [.createStatus owner repo sha false])
    else
    let userEmail := resolveUserEmail o.commitEmails o.profileEmail userId username
    let findEff := [Effect.concordFindExistingByEmail userEmail]
    let displayName := (jsOrNullStr ev.user.name).getD username
    let creation : Store × List Effect :=
      match o.createAgreement with
      | .error _ =>
        (db, findEff ++
          [.addPendingLabel owner repo prNumber,
           .createStatus owner repo sha false,
           .createComment owner repo prNumber .creationFailed])
      | .ok agreementUid =>
        let db1 := createCLARecord db
          { github_username := username
            github_user_id := userId
            github_email := some userEmail
            concord_agreement_uid := agreementUid
            signed_at := none
            status := .pending }
        let db2 := createPRRecord db1
          { repo_full_name := repoFullName
            pr_number := prNumber
            github_username := username
            github_user_id := userId
            comment_id := none
            concord_agreement_uid := some agreementUid }
        let db3 := updatePRRecordCommentId db2 repoFullName prNumber userId o.newCommentId
        (db3, findEff ++
          [.concordCreateAgreement userEmail displayName username repoFullName prNumber,
           .addPendingLabel owner repo prNumber,
           .createComment owner repo prNumber .claPending,
           .createStatus owner repo sha false])
    match o.concordExisting with
    | some c =>
      if c.status == "CURRENT_CONTRACT" then
        let db1 := createCLARecord db
          { github_username := username
            github_user_id := userId
            github_email := some userEmail
            concord_agreement_uid := c.uid
            signed_at := some (match c.signatureDate with
              | some ms => o.isoOfMillis ms
              | none => o.now)
            status := .signed }
        (db1, findEff ++
          [.createStatus owner repo sha true, .updateLabels owner repo prNumber])
      else creation
    | none => creation

/-! ### Command Handler (`handleIssueCommentEvent`, `github.ts` lines 254–405) -/

/-- The fields of an `issue_comment` webhook payload the handler reads. -/
structure IssueCommentEvent where
  action : String
  commentBody : String
  commentUser : GitHubUser
  /-- Whether `issue.pull_request` is present. -/
  isPullRequest : Bool
  issueNumber : Nat
  /-- `issue.user`: the PR author. -/
  issueUser : GitHubUser
  repoOwner : String
  repoName : String
  repoFullName : String
  installationId : Option Nat
deriving DecidableEq, Repr

/-- Results of the outbound calls `handleIssueCommentEvent` can make. -/
structure ResendOracle where
  /-- `githubService.getPRCommitEmails`. -/
  commitEmails : List String
  /-- `githubService.getUserEmail`. -/
  profileEmail : Option String
  /-- Whether `concordService.getAgreement` succeeds (a throw means the
  agreement no longer exists in Concord). -/
  getAgreementOk : Bool
  /-- `concordService.createAgreementFromTemplate`. -/
  createAgreement : Except Unit String
  /-- `getPullRequest(...).head.sha`. -/
  headSha : String

/-- `handleIssueCommentEvent`: the `/cla resend` command. -/
def handleIssueCommentEvent (o : ResendOracle) (db : Store)
    (ev : IssueCommentEvent) : Store × List Effect :=
  if !(ev.action == "created" && ev.isPullRequest) then (db, [])
  else
  let body := jsTrimLower ev.commentBody
  if body != "/cla resend" then (db, [])
  else match ev.installationId with
  | none => (db, [])
  | some _ =>
  let owner := ev.repoOwner
  let repo := ev.repoName
  let repoFullName := ev.repoFullName
  let prNumber := ev.issueNumber
  let prAuthor := ev.issueUser
  let userEmail := resolveUserEmail o.commitEmails o.profileEmail prAuthor.id prAuthor.login
  let claRecord := findCLAByGitHubUserId db prAuthor.id
  let displayName := (jsOrNullStr prAuthor.name).getD prAuthor.login
  -- The `if (needsNewAgreement)` block: clean up old records, create a fresh
  -- agreement; on creation failure only the failure comment is posted.
  let needsNew : Store × List Effect :=
    let db1 := match claRecord with
      | some _ => deleteCLAByGitHubUserId db prAuthor.id
      | none => db
    match o.createAgreement with
    | .error _ =>
      (db1, [.createComment owner repo prNumber .resendFailed])
    | .ok agreementUid =>
      let db2 := createCLARecord db1
        { github_username := prAuthor.login
          github_user_id := prAuthor.id
          github_email := some userEmail
          concord_agreement_uid := agreementUid
          signed_at := none
          status := .pending }
      let db3 := updatePRRecordAgreementUid db2 repoFullName prNumber prAuthor.id agreementUid
      (db3, [.concordCreateAgreement userEmail displayName prAuthor.login repoFullName prNumber,
             .createStatus owner repo o.headSha false,
             .createComment owner repo prNumber .newAgreementConfirm])
  match claRecord with
  | some c =>
    if c.status == CLAStatus.pending then
      if o.getAgreementOk then
        (db, [.concordGetAgreement c.concord_agreement_uid,
              .concordResendInvitation c.concord_agreement_uid userEmail displayName prAuthor.login,
              .createComment owner repo prNumber .resendConfirm])
      else
        -- `getAgreement` threw: fall through with `needsNewAgreement = true`
        needsNew
    else if c.status == CLAStatus.signed then
      (db, [.createComment owner repo prNumber .alreadySigned])
    else
      -- status `cancelled` or `expired`: `needsNewAgreement` stays false,
      -- no branch matches, the function returns without further action
      (db, [])
  | none => needsNew

/-! ### Completion Reconciler (`concord.ts` route: `handleAgreementExecuted`,
`updatePRAfterSigning`, `handleNewSignature`, `handleAgreementCancelled`) -/

/-- Results of the outbound calls one `updatePRAfterSigning` invocation can
make.  A `false`/`error` means the corresponding call throws. -/
structure ItemOracle where
  /-- Installation resolved by scanning `getAppInstallations` /
  `getInstallationRepos` for the record's repository. -/
  installationId : Option Nat
  /-- `getPullRequest`: the PR's current head sha, or a thrown error. -/
  fetchPR : Except Unit String
  /-- Whether `updateCommentCLASigned` succeeds (its failure is caught internally). -/
  commentUpdateOk : Bool
  /-- Whether `removeCLAPendingLabel` succeeds (a failure propagates). -/
  removeLabelOk : Bool
  /-- Whether the final `createCLAStatus` succeeds (a failure propagates). -/
  statusOk : Bool

/-- `updatePRAfterSigning`: effects completed, and whether the call threw
(uncaught failure propagating to the caller). -/
def updatePRAfterSigning (o : ItemOracle) (pr : PRRecord) : List Effect × Bool :=
  let parts := splitOnSlash pr.repo_full_name
  let owner := (parts.get? 0).getD ""
  let repo := (parts.get? 1).getD ""
  match o.installationId with
  | none => ([], false)
  | some _ =>
  match o.fetchPR with
  | .error _ => ([], false)
  | .ok sha =>
    let commentEff : List Effect := match pr.comment_id with
      | some cid => if o.commentUpdateOk then [.updateCommentSigned owner repo cid] else []
      | none => []
    if !o.removeLabelOk then (commentEff, true)
    else
      let eff1 := commentEff ++ [Effect.removePendingLabel owner repo pr.pr_number]
      if !o.statusOk then (eff1, true)
      else (eff1 ++ [Effect.createStatus owner repo sha true], false)

/-- The per-PR fan-out loop: each `updatePRAfterSigning` is wrapped in its own
`try`/`catch`, so a throw on one record does not stop the iteration. -/
def runFanout (items : PRRecord → ItemOracle) (prs : List PRRecord) : List Effect :=
  (prs.map (fun p => (updatePRAfterSigning (items p) p).1)).flatten

/-- Oracle for the completion handlers. -/
structure ExecOracle where
  /-- `new Date().toISOString()`. -/
  now : String
  /-- Per-record outcomes for the fan-out. -/
  items : PRRecord → ItemOracle

/-- `handleAgreementExecuted`: resolve the record by `agreement.uid`, falling
back to `agreement.signedAgreementUid`; unconditionally mark it `signed` with
the current time; fan out over all of the contributor's tracked PRs. -/
def handleAgreementExecuted (o : ExecOracle) (db : Store) (agreementUid : String)
    (signedAgreementUidField : Option String) : Store × List Effect :=
  let signedAgreementUid := (jsOrNullStr signedAgreementUidField).getD agreementUid
  let claRecord0 := findCLAByAgreementUid db agreementUid
  let claRecord := match claRecord0 with
    | some c => some c
    | none =>
      if signedAgreementUid != agreementUid then findCLAByAgreementUid db signedAgreementUid
      else none
  match claRecord with
  | none => (db, [])
  | some c =>
    let db1 := updateCLAStatusByAgreementUid db c.concord_agreement_uid .signed (some o.now)
    let prs := findPRRecordsByGitHubUserId db1 c.github_user_id
    if prs.length = 0 then (db1, [])
    else (db1, runFanout o.items prs)

/-- `handleNewSignature`: like `handleAgreementExecuted` but a no-op when the
record is already `signed`, and no `signedAgreementUid` fallback. -/
def handleNewSignature (o : ExecOracle) (db : Store) (agreementUid : String) :
    Store × List Effect :=
  match findCLAByAgreementUid db agreementUid with
  | none => (db, [])
  | some c =>
    if c.status == CLAStatus.signed then (db, [])
    else
      let db1 := updateCLAStatusByAgreementUid db agreementUid .signed (some o.now)
      let prs := findPRRecordsByGitHubUserId db1 c.github_user_id
      if prs.length = 0 then (db1, [])
      else (db1, runFanout o.items prs)

/-- `handleAgreementCancelled`: `db.updateCLAStatusByAgreementUid(agreement.uid,
'cancelled')` — the two-argument call binds `signedAt || null` to NULL. -/
def handleAgreementCancelled (db : Store) (agreementUid : String) : Store × List Effect :=
  (updateCLAStatusByAgreementUid db agreementUid .cancelled none, [])

/-! ### GitHub webhook route (`router.post('/webhook')`, `github.ts` lines 410–452) -/

/-- `'sha256=' + hmac.update(payload).digest('hex')`, with the keyed
HMAC-SHA256 of the shared webhook secret abstracted as `hmacHex`. -/
def expectedDigest (hmacHex : String → String) (payload : String) : String :=
  "sha256=" ++ hmacHex payload

/-- `crypto.timingSafeEqual` throws when the buffer lengths differ; the
surrounding `try`/`catch` returns `false` in that case. -/
def timingSafeEqualOrFalse (a b : String) : Bool :=
  if a.length ≠ b.length then false else a == b

/-- `verifySignature(payload, signature)`. -/
def verifySignature (hmacHex : String → String) (payload : String)
    (signature : Option String) : Bool :=
  match signature with
  | none => false
  | some sig => timingSafeEqualOrFalse (expectedDigest hmacHex payload) sig

/-- The decoded `x-github-event` dispatch of the webhook route. -/
inductive WebhookEvent where
  | pullRequest (ev : PullRequestEvent)
  | issueComment (ev : IssueCommentEvent)
  | ping
  | other
deriving Repr

/-! #### JSON bodies

The server installs `express.json()`, so the route receives `req.body` as a
parsed value; the raw request bytes are consumed by the body parser and are
not available to the route.  Line 418 recomputes a body string with
`JSON.stringify(req.body)` and feeds that to `verifySignature`.  To reason
about the difference between the wire bytes and this re-serialization we
embed the JSON fragment the analysis needs: flat objects whose values are
strings or natural numbers, with arbitrary whitespace on the wire.
`jsonStringify` mirrors `JSON.stringify` on this fragment (insertion-ordered
keys, no whitespace); `jsonParse` mirrors the body parser. -/

/-- A primitive JSON value. -/
inductive JsonPrim where
  | num (n : Nat)
  | str (s : String)
deriving DecidableEq, Repr

/-- `JSON.stringify` on a primitive value. -/
def stringifyPrim : JsonPrim → String
  | .num n => toString n
  | .str s => "\"" ++ s ++ "\""

/-- `JSON.stringify` on an object's fields: `"k":v` joined by commas. -/
def stringifyFields : List (String × JsonPrim) → String
  | [] => ""
  | [(k, v)] => "\"" ++ k ++ "\":" ++ stringifyPrim v
  | (k, v) :: f :: fs =>
    "\"" ++ k ++ "\":" ++ stringifyPrim v ++ "," ++ stringifyFields (f :: fs)

/-- `JSON.stringify(req.body)`: compact, insertion-ordered serialization. -/
def jsonStringify (body : List (String × JsonPrim)) : String :=
  "\x7b" ++ stringifyFields body ++ "\x7d"

/-- Skip leading whitespace. -/
def skipWs : List Char → List Char
  | c :: cs => if c.isWhitespace then skipWs cs else c :: cs
  | [] => []

/-- Read a string literal's content up to the closing quote. -/
def parseStrChars : List Char → Option (List Char × List Char)
  | [] => none
  | c :: cs =>
    if c == '"' then some ([], cs)
    else match parseStrChars cs with
      | some (s, rest) => some (c :: s, rest)
      | none => none

/-- Decimal digits to a number. -/
def foldDigits (ds : List Char) : Nat :=
  ds.foldl (fun a c => a * 10 + (c.toNat - 48)) 0

/-- Read one primitive value. -/
def parsePrim : List Char → Option (JsonPrim × List Char)
  | [] => none
  | c :: rest =>
    if c == '"' then
      match parseStrChars rest with
      | some (s, r) => some (.str ⟨s⟩, r)
      | none => none
    else if c.isDigit then
      some (.num (foldDigits ((c :: rest).takeWhile Char.isDigit)),
            (c :: rest).dropWhile Char.isDigit)
    else none

/-- Read the fields of an object after the opening brace, up to and
including the closing brace.  The fuel bounds the number of fields. -/
def parseFieldsFlat : Nat → List Char → Option (List (String × JsonPrim) × List Char)
  | 0, _ => none
  | fuel + 1, cs =>
    match skipWs cs with
    | '"' :: rest =>
      match parseStrChars rest with
      | some (k, r1) =>
        match skipWs r1 with
        | ':' :: r2 =>
          match parsePrim (skipWs r2) with
          | some (v, r3) =>
            match skipWs r3 with
            | ',' :: r4 =>
              (match parseFieldsFlat fuel r4 with
               | some (fs, r5) => some ((⟨k⟩, v) :: fs, r5)
               | none => none)
            | '}' :: r4 => some ([(⟨k⟩, v)], r4)
            | _ => none
          | none => none
        | _ => none
      | none => none
    | _ => none

/-- The JSON body parser (`express.json()`) on the embedded fragment:
whitespace-tolerant parse of one flat object. -/
def jsonParse (s : String) : Option (List (String × JsonPrim)) :=
  match skipWs s.toList with
  | '{' :: rest =>
    match skipWs rest with
    | '}' :: r => if (skipWs r).isEmpty then some [] else none
    | r2 =>
      match parseFieldsFlat (s.length + 1) r2 with
      | some (fs, r3) => if (skipWs r3).isEmpty then some fs else none
      | none => none
  | _ => none

/-- An inbound webhook request.  `transportBody` is the raw byte string of
the HTTP request — the string a well-behaved sender signs; the body parser
consumes it, and the route only sees `body`, the parsed value
(`req.body`), along with the `x-hub-signature-256` header and the decoded
event. -/
structure WebhookRequest where
  transportBody : String
  body : List (String × JsonPrim)
  signature : Option String
  event : WebhookEvent

/-- The GitHub webhook route: re-serialize the parsed body
(`const rawBody = JSON.stringify(req.body)` — not the wire bytes, which are
gone after body parsing), verify the signature against it, then dispatch.
Returns the store, the effect trace, and the HTTP status code. -/
def githubWebhookPost (cfg : Config) (hmacHex : String → String)
    (prOracle : PROracle) (icOracle : ResendOracle) (db : Store)
    (req : WebhookRequest) : Store × List Effect × Nat :=
  let rawBody := jsonStringify req.body
  if !verifySignature hmacHex rawBody req.signature then (db, [], 401)
  else
    match req.event with
    | .pullRequest ev =>
      let r := handlePullRequestEvent cfg prOracle db ev
      (r.1, r.2, 200)
    | .issueComment ev =>
      let r := handleIssueCommentEvent icOracle db ev
      (r.1, r.2, 200)
    | .ping => (db, [], 200)
    | .other => (db, [], 200)

/-! ## Auxiliary lemmas about the record store -/

theorem find?_map_pred_inv {α : Type} (p : α → Bool) (f : α → α)
    (hf : ∀ x, p (f x) = p x) (l : List α) :
    (l.map f).find? p = (l.find? p).map f := by
  induction l with
  | nil => rfl
  | cons a t ih =>
    simp only [List.map_cons, List.find?_cons, hf a]
    cases h : p a <;> simp [ih]

theorem map_eq_self_of_fix {α : Type} (f : α → α) (l : List α)
    (h : ∀ x ∈ l, f x = x) : l.map f = l := by
  have := List.map_congr_left (g := id) (by simpa using h)
  simpa using this

theorem createCLARecord_pr_records (db : Store) (r : CLAInsert) :
    (createCLARecord db r).pr_records = db.pr_records := by
  unfold createCLARecord; split <;> rfl

theorem createPRRecord_cla_records (db : Store) (r : PRInsert) :
    (createPRRecord db r).cla_records = db.cla_records := by
  unfold createPRRecord; split <;> rfl

theorem updatePRRecordCommentId_cla_records (db : Store) (a : String) (b c d : Nat) :
    (updatePRRecordCommentId db a b c d).cla_records = db.cla_records := rfl

theorem updatePRRecordAgreementUid_cla_records (db : Store) (a : String) (b c : Nat)
    (u : String) :
    (updatePRRecordAgreementUid db a b c u).cla_records = db.cla_records := rfl

theorem updateCLAStatusByAgreementUid_pr_records (db : Store) (u : String)
    (st : CLAStatus) (sa : Option String) :
    (updateCLAStatusByAgreementUid db u st sa).pr_records = db.pr_records := rfl

/-- Looking a record up after a status update applies the update to the
looked-up record: the update function preserves `concord_agreement_uid`,
which is the lookup key. -/
theorem findCLA_after_updateStatus (db : Store) (u : String) (st : CLAStatus)
    (sa : Option String) (c : CLARecord)
    (h : findCLAByAgreementUid db u = some c) :
    findCLAByAgreementUid (updateCLAStatusByAgreementUid db u st sa) u =
      some { c with status := st, signed_at := jsOrNullStr sa } := by
  have hkey : c.concord_agreement_uid = u := by
    have := List.find?_some h
    simpa using this
  unfold findCLAByAgreementUid updateCLAStatusByAgreementUid
  rw [find?_map_pred_inv]
  · unfold findCLAByAgreementUid at h
    rw [h]
    simp [hkey]
  · intro x
    by_cases hx : x.concord_agreement_uid = u <;> simp [hx]

/-- A status update by one agreement uid leaves records with other uids alone. -/
theorem findCLA_after_updateStatus_ne (db : Store) (u v : String) (st : CLAStatus)
    (sa : Option String) (hne : v ≠ u) :
    findCLAByAgreementUid (updateCLAStatusByAgreementUid db u st sa) v =
      findCLAByAgreementUid db v := by
  unfold findCLAByAgreementUid updateCLAStatusByAgreementUid
  rw [find?_map_pred_inv]
  · rcases h : List.find? (fun r => decide (r.concord_agreement_uid = v)) db.cla_records with
      _ | c
    · rw [h]; rfl
    · have hkey : c.concord_agreement_uid = v := by
        have := List.find?_some h
        simpa using this
      rw [h]
      simp [hkey, hne]
  · intro x
    by_cases hx : x.concord_agreement_uid = u <;> simp [hx]

/-- After a fresh insert (no record for the user id yet), the lookup returns
the newly inserted row: `signed_at` NULL, email marshalled through `|| null`. -/
theorem findCLA_after_fresh_create (db : Store) (r : CLAInsert)
    (h : findCLAByGitHubUserId db r.github_user_id = none) :
    findCLAByGitHubUserId (createCLARecord db r) r.github_user_id =
      some { github_username := r.github_username
             github_user_id := r.github_user_id
             github_email := jsOrNullStr r.github_email
             concord_agreement_uid := r.concord_agreement_uid
             signed_at := none
             status := r.status } := by
  unfold createCLARecord
  rw [h]
  unfold findCLAByGitHubUserId at *
  simp [List.find?_append, h]

/-- Branch reduction for `handlePullRequestEvent`: an `opened` event for a
non-exempt contributor with no stored CLA record, no tracked PR row, no
existing Concord agreement, and a successful agreement creation takes the
"needs new agreement" path and persists both rows. -/
theorem handlePR_fresh_ok (cfg : Config) (o : PROracle) (db : Store)
    (ev : PullRequestEvent) (iid : Nat) (uid : String)
    (hact : ev.action = "opened")
    (hinst : ev.installationId = some iid)
    (hwl : isUserExempted cfg ev.user.login = false)
    (horg : o.isOrgMember = false)
    (hcla : findCLAByGitHubUserId db ev.user.id = none)
    (hpr : findPRRecord db ev.repoFullName ev.prNumber ev.user.id = none)
    (hconc : ∀ c, o.concordExisting = some c → ¬ c.status = "CURRENT_CONTRACT")
    (hcreate : o.createAgreement = .ok uid) :
    handlePullRequestEvent cfg o db ev =
      (updatePRRecordCommentId
         (createPRRecord
           (createCLARecord db
             { github_username := ev.user.login
               github_user_id := ev.user.id
               github_email := some (resolveUserEmail o.commitEmails o.profileEmail
                 ev.user.id ev.user.login)
               concord_agreement_uid := uid
               signed_at := none
               status := .pending })
           { repo_full_name := ev.repoFullName
             pr_number := ev.prNumber
             github_username := ev.user.login
             github_user_id := ev.user.id
             comment_id := none
             concord_agreement_uid := some uid })
         ev.repoFullName ev.prNumber ev.user.id o.newCommentId,
       [.concordFindExistingByEmail (resolveUserEmail o.commitEmails o.profileEmail
          ev.user.id ev.user.login),
        .concordCreateAgreement (resolveUserEmail o.commitEmails o.profileEmail
          ev.user.id ev.user.login)
          ((jsOrNullStr ev.user.name).getD ev.user.login) ev.user.login
          ev.repoFullName ev.prNumber,
        .addPendingLabel ev.repoOwner ev.repoName ev.prNumber,
        .createComment ev.repoOwner ev.repoName ev.prNumber .claPending,
        .createStatus ev.repoOwner ev.repoName ev.headSha false]) := by
  cases hc : o.concordExisting with
  | none =>
    simp [handlePullRequestEvent, hact, hinst, hwl, horg, hcla, hpr, hcreate, hc]
  | some c =>
    have hne : (c.status == "CURRENT_CONTRACT") = false := by
      simpa using hconc c hc
    simp [handlePullRequestEvent, hact, hinst, hwl, horg, hcla, hpr, hcreate, hc, hne]

/-- Branch reduction for `handlePullRequestEvent`: as in `handlePR_fresh_ok`
but agreement creation throws — the degraded path posts the label, the
pending status and the manual-follow-up comment, and persists nothing. -/
theorem handlePR_fresh_fail (cfg : Config) (o : PROracle) (db : Store)
    (ev : PullRequestEvent) (iid : Nat)
    (hact : ev.action = "opened")
    (hinst : ev.installationId = some iid)
    (hwl : isUserExempted cfg ev.user.login = false)
    (horg : o.isOrgMember = false)
    (hcla : findCLAByGitHubUserId db ev.user.id = none)
    (hpr : findPRRecord db ev.repoFullName ev.prNumber ev.user.id = none)
    (hconc : ∀ c, o.concordExisting = some c → ¬ c.status = "CURRENT_CONTRACT")
    (hcreate : o.createAgreement = .error ()) :
    handlePullRequestEvent cfg o db ev =
      (db,
       [.concordFindExistingByEmail (resolveUserEmail o.commitEmails o.profileEmail
          ev.user.id ev.user.login),
        .addPendingLabel ev.repoOwner ev.repoName ev.prNumber,
        .createStatus ev.repoOwner ev.repoName ev.headSha false,
        .createComment ev.repoOwner ev.repoName ev.prNumber .creationFailed]) := by
  cases hc : o.concordExisting with
  | none =>
    simp [handlePullRequestEvent, hact, hinst, hwl, horg, hcla, hpr, hcreate, hc]
  | some c =>
    have hne : (c.status == "CURRENT_CONTRACT") = false := by
      simpa using hconc c hc
    simp [handlePullRequestEvent, hact, hinst, hwl, horg, hcla, hpr, hcreate, hc, hne]

/-- The store produced by the "needs new agreement" path, explicitly: one CLA
row and one PR row appended, the PR row carrying the new comment id. -/
theorem fresh_create_store_shape (db : Store) (username email auid rfn : String)
    (userId n cid : Nat)
    (hcla : findCLAByGitHubUserId db userId = none)
    (hpr : findPRRecord db rfn n userId = none) :
    updatePRRecordCommentId
        (createPRRecord
          (createCLARecord db
            { github_username := username, github_user_id := userId,
              github_email := some email, concord_agreement_uid := auid,
              signed_at := none, status := .pending })
          { repo_full_name := rfn, pr_number := n, github_username := username,
            github_user_id := userId, comment_id := none,
            concord_agreement_uid := some auid })
        rfn n userId cid =
      { cla_records := db.cla_records ++
          [{ github_username := username, github_user_id := userId,
             github_email := jsOrNullStr (some email), concord_agreement_uid := auid,
             signed_at := none, status := .pending }]
        pr_records := db.pr_records ++
          [{ repo_full_name := rfn, pr_number := n, github_username := username,
             github_user_id := userId, comment_id := some cid,
             concord_agreement_uid := jsOrNullStr (some auid) }] } := by
  set ins1 : CLAInsert :=
    { github_username := username, github_user_id := userId,
      github_email := some email, concord_agreement_uid := auid,
      signed_at := none, status := .pending } with hins1
  set ins2 : PRInsert :=
    { repo_full_name := rfn, pr_number := n, github_username := username,
      github_user_id := userId, comment_id := none,
      concord_agreement_uid := some auid } with hins2
  have hcla' : findCLAByGitHubUserId db ins1.github_user_id = none := hcla
  have hpr' : findPRRecord db ins2.repo_full_name ins2.pr_number
      ins2.github_user_id = none := hpr
  have h1 : createCLARecord db ins1 =
      { db with cla_records := db.cla_records ++
          [{ github_username := ins1.github_username
             github_user_id := ins1.github_user_id
             github_email := jsOrNullStr ins1.github_email
             concord_agreement_uid := ins1.concord_agreement_uid
             signed_at := none
             status := ins1.status }] } := by
    unfold createCLARecord
    rw [hcla']
    rfl
  have hpr1 : findPRRecord (createCLARecord db ins1)
      ins2.repo_full_name ins2.pr_number ins2.github_user_id = none := by
    unfold findPRRecord
    rw [createCLARecord_pr_records]
    exact hpr'
  have h2 : createPRRecord (createCLARecord db ins1) ins2 =
      { createCLARecord db ins1 with
        pr_records := (createCLARecord db ins1).pr_records ++
          [{ repo_full_name := ins2.repo_full_name
             pr_number := ins2.pr_number
             github_username := ins2.github_username
             github_user_id := ins2.github_user_id
             comment_id := jsOrNullNat ins2.comment_id
             concord_agreement_uid := jsOrNullStr ins2.concord_agreement_uid }] } := by
    unfold createPRRecord
    rw [hpr1]
    rfl
  rw [h2, h1]
  unfold updatePRRecordCommentId
  simp only [createCLARecord_pr_records]
  refine congrArg (Store.mk _) ?_
  show List.map _ (db.pr_records ++ _) = _
  rw [List.map_append]
  have hfix : List.map (fun r =>
      if r.repo_full_name = rfn ∧ r.pr_number = n ∧ r.github_user_id = userId then
        { r with comment_id := some cid } else r) db.pr_records = db.pr_records := by
    refine map_eq_self_of_fix _ _ (fun x hx => ?_)
    have := List.find?_eq_none.mp hpr x hx
    exact if_neg (by simpa using this)
  rw [hfix]
  simp [hins1, hins2]

/-! ## Concrete sample inputs used by the witnesses -/

def sampleCfg : Config := ⟨[], false⟩

def sampleEvent : PullRequestEvent :=
  { action := "opened", repoOwner := "org", repoName := "repo",
    repoFullName := "org/repo", prNumber := 7,
    user := { id := 42, login := "alice", name := none },
    headSha := "sha1", installationId := some 1 }

def sampleOracle : PROracle :=
  { isOrgMember := false, commitEmails := ["alice@example.com"], profileEmail := none,
    concordExisting := none, createAgreement := .ok "AG-1", newCommentId := 100,
    now := "T0", isoOfMillis := fun _ => "T0" }

def emptyStore : Store := ⟨[], []⟩

def sampleResendOracle : ResendOracle :=
  { commitEmails := [], profileEmail := none, getAgreementOk := true,
    createAgreement := .ok "AG-2", headSha := "sha9" }

/-! ## Claims -/

/-- C1: processing the same `opened` event twice for a never-before-seen,
non-exempt contributor leaves exactly one ContributorAgreement row for the
user id and exactly one TrackedPullRequest row for the (repo, pr, user)
triple; the second processing takes the "already pending, already tracked"
path, whose only side effect is refreshing the pending commit status — no
second pending-signature comment, no second external agreement — and it
leaves the store unchanged. -/
theorem C1_opened_twice_idempotent (cfg : Config) (o1 o2 : PROracle) (db : Store)
    (ev : PullRequestEvent) (iid : Nat) (uid : String)
    (hact : ev.action = "opened")
    (hinst : ev.installationId = some iid)
    (hwl : isUserExempted cfg ev.user.login = false)
    (horg1 : o1.isOrgMember = false)
    (horg2 : o2.isOrgMember = false)
    (hcla : findCLAByGitHubUserId db ev.user.id = none)
    (hpr : findPRRecord db ev.repoFullName ev.prNumber ev.user.id = none)
    (hconc : ∀ c, o1.concordExisting = some c → ¬ c.status = "CURRENT_CONTRACT")
    (hcreate : o1.createAgreement = .ok uid) :
    (((handlePullRequestEvent cfg o2 (handlePullRequestEvent cfg o1 db ev).1 ev).1.cla_records.filter
        (fun r => r.github_user_id == ev.user.id)).length = 1) ∧
    (((handlePullRequestEvent cfg o2 (handlePullRequestEvent cfg o1 db ev).1 ev).1.pr_records.filter
        (fun r => r.repo_full_name == ev.repoFullName && r.pr_number == ev.prNumber &&
          r.github_user_id == ev.user.id)).length = 1) ∧
    (handlePullRequestEvent cfg o2 (handlePullRequestEvent cfg o1 db ev).1 ev).2 =
      [.createStatus ev.repoOwner ev.repoName ev.headSha false] ∧
    (handlePullRequestEvent cfg o2 (handlePullRequestEvent cfg o1 db ev).1 ev).1 =
      (handlePullRequestEvent cfg o1 db ev).1 := by
  have h1 := handlePR_fresh_ok cfg o1 db ev iid uid hact hinst hwl horg1 hcla hpr hconc hcreate
  have hshape := fresh_create_store_shape db ev.user.login
    (resolveUserEmail o1.commitEmails o1.profileEmail ev.user.id ev.user.login) uid
    ev.repoFullName ev.user.id ev.prNumber o1.newCommentId hcla hpr
  rw [h1]
  simp only [hshape]
  have hf1 : findCLAByGitHubUserId
      ({ cla_records := db.cla_records ++
          [{ github_username := ev.user.login, github_user_id := ev.user.id,
             github_email := jsOrNullStr (some (resolveUserEmail o1.commitEmails
               o1.profileEmail ev.user.id ev.user.login)),
             concord_agreement_uid := uid, signed_at := none, status := .pending }]
         pr_records := db.pr_records ++
          [{ repo_full_name := ev.repoFullName, pr_number := ev.prNumber,
             github_username := ev.user.login, github_user_id := ev.user.id,
             comment_id := some o1.newCommentId,
             concord_agreement_uid := jsOrNullStr (some uid) }] } : Store) ev.user.id =
      some { github_username := ev.user.login, github_user_id := ev.user.id,
             github_email := jsOrNullStr (some (resolveUserEmail o1.commitEmails
               o1.profileEmail ev.user.id ev.user.login)),
             concord_agreement_uid := uid, signed_at := none, status := .pending } := by
    unfold findCLAByGitHubUserId at hcla ⊢
    rw [List.find?_append, hcla]
    simp
  have hf2 : findPRRecord
      ({ cla_records := db.cla_records ++
          [{ github_username := ev.user.login, github_user_id := ev.user.id,
             github_email := jsOrNullStr (some (resolveUserEmail o1.commitEmails
               o1.profileEmail ev.user.id ev.user.login)),
             concord_agreement_uid := uid, signed_at := none, status := .pending }]
         pr_records := db.pr_records ++
          [{ repo_full_name := ev.repoFullName, pr_number := ev.prNumber,
             github_username := ev.user.login, github_user_id := ev.user.id,
             comment_id := some o1.newCommentId,
             concord_agreement_uid := jsOrNullStr (some uid) }] } : Store)
        ev.repoFullName ev.prNumber ev.user.id =
      some { repo_full_name := ev.repoFullName, pr_number := ev.prNumber,
             github_username := ev.user.login, github_user_id := ev.user.id,
             comment_id := some o1.newCommentId,
             concord_agreement_uid := jsOrNullStr (some uid) } := by
    unfold findPRRecord at hpr ⊢
    rw [List.find?_append, hpr]
    simp
  have hnil1 : db.cla_records.filter (fun r => r.github_user_id == ev.user.id) = [] := by
    refine List.filter_eq_nil_iff.mpr (fun x hx => ?_)
    have := List.find?_eq_none.mp hcla x hx
    simpa using this
  have hnil2 : db.pr_records.filter (fun r => r.repo_full_name == ev.repoFullName &&
      r.pr_number == ev.prNumber && r.github_user_id == ev.user.id) = [] := by
    refine List.filter_eq_nil_iff.mpr (fun x hx => ?_)
    have := List.find?_eq_none.mp hpr x hx
    simp only [decide_eq_true_eq] at this
    simp only [Bool.and_eq_true, beq_iff_eq, not_and]
    intro h1 h3
    exact this ⟨h1.1, h1.2, h3⟩
  refine ⟨?_, ?_, ?_, ?_⟩
  · simp [handlePullRequestEvent, hact, hinst, hwl, horg2, hf1, hf2,
      List.filter_append, hnil1]
  · simp [handlePullRequestEvent, hact, hinst, hwl, horg2, hf1, hf2,
      List.filter_append, hnil2]
  · simp [handlePullRequestEvent, hact, hinst, hwl, horg2, hf1, hf2]
  · simp [handlePullRequestEvent, hact, hinst, hwl, horg2, hf1, hf2]

/-- Witness for C1 at a concrete `opened` event. -/
theorem C1_witness :
    (((handlePullRequestEvent sampleCfg sampleOracle
        (handlePullRequestEvent sampleCfg sampleOracle emptyStore sampleEvent).1
        sampleEvent).1.cla_records.filter
        (fun r => r.github_user_id == sampleEvent.user.id)).length = 1) ∧
    (((handlePullRequestEvent sampleCfg sampleOracle
        (handlePullRequestEvent sampleCfg sampleOracle emptyStore sampleEvent).1
        sampleEvent).1.pr_records.filter
        (fun r => r.repo_full_name == sampleEvent.repoFullName &&
          r.pr_number == sampleEvent.prNumber &&
          r.github_user_id == sampleEvent.user.id)).length = 1) ∧
    (handlePullRequestEvent sampleCfg sampleOracle
        (handlePullRequestEvent sampleCfg sampleOracle emptyStore sampleEvent).1
        sampleEvent).2 =
      [.createStatus sampleEvent.repoOwner sampleEvent.repoName
        sampleEvent.headSha false] ∧
    (handlePullRequestEvent sampleCfg sampleOracle
        (handlePullRequestEvent sampleCfg sampleOracle emptyStore sampleEvent).1
        sampleEvent).1 =
      (handlePullRequestEvent sampleCfg sampleOracle emptyStore sampleEvent).1 :=
  C1_opened_twice_idempotent sampleCfg sampleOracle sampleOracle emptyStore sampleEvent
    1 "AG-1" rfl rfl (by decide) rfl rfl rfl rfl
    (fun c h => Option.noConfusion h) rfl

/-- C4: when external agreement creation fails in the "needs new agreement"
step, the PR still receives the pending label, a pending commit status and
the manual-follow-up comment, while the store is left untouched (no
ContributorAgreement row, no TrackedPullRequest row); a retry of the same
event is therefore classified as "needs new agreement" again — its effect
trace is the full creation trace (external agreement creation and
pending-signature comment), not the "already pending, already tracked"
refresh. -/
theorem C4_creation_failure_degraded (cfg : Config) (o o2 : PROracle) (db : Store)
    (ev : PullRequestEvent) (iid : Nat) (uid : String)
    (hact : ev.action = "opened")
    (hinst : ev.installationId = some iid)
    (hwl : isUserExempted cfg ev.user.login = false)
    (horg : o.isOrgMember = false)
    (hcla : findCLAByGitHubUserId db ev.user.id = none)
    (hpr : findPRRecord db ev.repoFullName ev.prNumber ev.user.id = none)
    (hconc : ∀ c, o.concordExisting = some c → ¬ c.status = "CURRENT_CONTRACT")
    (hcreate : o.createAgreement = .error ())
    (horg2 : o2.isOrgMember = false)
    (hconc2 : ∀ c, o2.concordExisting = some c → ¬ c.status = "CURRENT_CONTRACT")
    (hcreate2 : o2.createAgreement = .ok uid) :
    handlePullRequestEvent cfg o db ev =
      (db,
       [.concordFindExistingByEmail (resolveUserEmail o.commitEmails o.profileEmail
          ev.user.id ev.user.login),
        .addPendingLabel ev.repoOwner ev.repoName ev.prNumber,
        .createStatus ev.repoOwner ev.repoName ev.headSha false,
        .createComment ev.repoOwner ev.repoName ev.prNumber .creationFailed]) ∧
    (handlePullRequestEvent cfg o2 (handlePullRequestEvent cfg o db ev).1 ev).2 =
      [.concordFindExistingByEmail (resolveUserEmail o2.commitEmails o2.profileEmail
         ev.user.id ev.user.login),
       .concordCreateAgreement (resolveUserEmail o2.commitEmails o2.profileEmail
         ev.user.id ev.user.login)
         ((jsOrNullStr ev.user.name).getD ev.user.login) ev.user.login
         ev.repoFullName ev.prNumber,
       .addPendingLabel ev.repoOwner ev.repoName ev.prNumber,
       .createComment ev.repoOwner ev.repoName ev.prNumber .claPending,
       .createStatus ev.repoOwner ev.repoName ev.headSha false] := by
  have hfail := handlePR_fresh_fail cfg o db ev iid hact hinst hwl horg hcla hpr hconc hcreate
  refine ⟨hfail, ?_⟩
  rw [hfail]
  have hok := handlePR_fresh_ok cfg o2 db ev iid uid hact hinst hwl horg2 hcla hpr hconc2 hcreate2
  dsimp only
  rw [hok]

/-- Witness for C4 at a concrete `opened` event whose first agreement
creation throws. -/
theorem C4_witness :
    handlePullRequestEvent sampleCfg { sampleOracle with createAgreement := .error () }
        emptyStore sampleEvent =
      (emptyStore,
       [.concordFindExistingByEmail (resolveUserEmail sampleOracle.commitEmails
          sampleOracle.profileEmail sampleEvent.user.id sampleEvent.user.login),
        .addPendingLabel sampleEvent.repoOwner sampleEvent.repoName sampleEvent.prNumber,
        .createStatus sampleEvent.repoOwner sampleEvent.repoName sampleEvent.headSha false,
        .createComment sampleEvent.repoOwner sampleEvent.repoName sampleEvent.prNumber
          .creationFailed]) ∧
    (handlePullRequestEvent sampleCfg sampleOracle
        (handlePullRequestEvent sampleCfg { sampleOracle with createAgreement := .error () }
          emptyStore sampleEvent).1 sampleEvent).2 =
      [.concordFindExistingByEmail (resolveUserEmail sampleOracle.commitEmails
         sampleOracle.profileEmail sampleEvent.user.id sampleEvent.user.login),
       .concordCreateAgreement (resolveUserEmail sampleOracle.commitEmails
         sampleOracle.profileEmail sampleEvent.user.id sampleEvent.user.login)
         ((jsOrNullStr sampleEvent.user.name).getD sampleEvent.user.login)
         sampleEvent.user.login sampleEvent.repoFullName sampleEvent.prNumber,
       .addPendingLabel sampleEvent.repoOwner sampleEvent.repoName sampleEvent.prNumber,
       .createComment sampleEvent.repoOwner sampleEvent.repoName sampleEvent.prNumber
         .claPending,
       .createStatus sampleEvent.repoOwner sampleEvent.repoName sampleEvent.headSha false] :=
  C4_creation_failure_degraded sampleCfg { sampleOracle with createAgreement := .error () }
    sampleOracle emptyStore sampleEvent 1 "AG-1" rfl rfl (by decide) rfl rfl rfl
    (fun c h => Option.noConfusion h) rfl rfl (fun c h => Option.noConfusion h) rfl

/-- C7: contributor email resolution is a pure function of the commit emails,
the profile email, the user id and the username, and follows the order: first
commit author email not containing the `noreply.github.com` relay marker,
falling back to the first commit email when every one is a relay address;
then the public profile email; otherwise the deterministic placeholder
`{userId}+{username}@users.noreply.github.com` — which is in particular the
result when there are no commit emails and no profile email.  (Commit emails
are non-empty strings: `getPRCommitEmails` collects only truthy
`commit.author.email` values.) -/
theorem C7_email_resolution (commitEmails : List String) (profileEmail : Option String)
    (userId : Nat) (username : String)
    (hne : "" ∉ commitEmails) :
    (∀ r, (commitEmails.filter (fun x => !hasNoreply x)).head? = some r →
        resolveUserEmail commitEmails profileEmail userId username = r) ∧
    (∀ e rest, commitEmails = e :: rest →
        commitEmails.filter (fun x => !hasNoreply x) = [] →
        resolveUserEmail commitEmails profileEmail userId username = e) ∧
    (∀ p, commitEmails = [] → profileEmail = some p → p ≠ "" →
        resolveUserEmail commitEmails profileEmail userId username = p) ∧
    (commitEmails = [] → profileEmail = none →
        resolveUserEmail commitEmails profileEmail userId username =
          toString userId ++ "+" ++ username ++ "@users.noreply.github.com") := by
  refine ⟨?_, ?_, ?_, ?_⟩
  · intro r hr
    cases hc : commitEmails with
    | nil => rw [hc] at hr; simp at hr
    | cons first rest =>
      rw [hc] at hr hne
      have hrmem : r ∈ (first :: rest).filter (fun x => !hasNoreply x) := by
        cases hf : (first :: rest).filter (fun x => !hasNoreply x) with
        | nil => rw [hf] at hr; simp at hr
        | cons a t =>
          rw [hf] at hr
          simp only [List.head?_cons, Option.some.injEq] at hr
          rw [← hr]
          exact List.mem_cons_self a t
      have hrne : r ≠ "" := fun h => hne (h ▸ List.mem_of_mem_filter hrmem)
      simp [resolveUserEmail, hr, hrne, jsTruthyStr]
  · intro e rest hc hfilter
    rw [hc] at hfilter hne
    have hene : e ≠ "" := fun h => hne (h ▸ List.mem_cons_self e rest)
    simp [resolveUserEmail, hc, hfilter, hene, jsTruthyStr]
  · intro p hc hp hpne
    simp [resolveUserEmail, hc, hp, hpne, jsTruthyStr]
  · intro hc hp
    simp [resolveUserEmail, hc, hp, jsTruthyStr]

/-- Witness for C7: a relay address is skipped in favor of the next commit
email, and with no commit emails and no profile email the placeholder is
produced. -/
theorem C7_witness :
    resolveUserEmail ["x@users.noreply.github.com", "b@x.com"] none 42 "alice" =
      "b@x.com" ∧
    resolveUserEmail [] none 42 "alice" = "42+alice@users.noreply.github.com" :=
  ⟨(C7_email_resolution ["x@users.noreply.github.com", "b@x.com"] none 42 "alice"
      (by decide)).1 "b@x.com" (by decide),
   (C7_email_resolution [] none 42 "alice" (by decide)).2.2.2 rfl rfl⟩

/-- C5 counterexample: the signature is NOT verified over the raw request
body.  The wire body `{"zen": "hi"}` (with a space) parses to the object the
route sees, whose `JSON.stringify` re-serialization is the different string
`{"zen":"hi"}`.  A request correctly signed over the raw body — signature
`sha256=HMAC(raw bytes)` — is rejected with 401, while a signature computed
over the re-serialization is accepted: the digest the route compares against
is taken over `JSON.stringify(req.body)`, not the raw bytes.  (The keyed
HMAC-SHA256 is instantiated with a concrete injective stand-in.) -/
theorem C5_counterexample :
    (jsonParse "\x7b\"zen\": \"hi\"\x7d").map jsonStringify = some "\x7b\"zen\":\"hi\"\x7d" ∧
    "\x7b\"zen\": \"hi\"\x7d" ≠ "\x7b\"zen\":\"hi\"\x7d" ∧
    githubWebhookPost sampleCfg (fun s => s) sampleOracle sampleResendOracle emptyStore
      { transportBody := "\x7b\"zen\": \"hi\"\x7d",
        body := (jsonParse "\x7b\"zen\": \"hi\"\x7d").getD [],
        signature := some (expectedDigest (fun s => s) "\x7b\"zen\": \"hi\"\x7d"),
        event := .ping } = (emptyStore, [], 401) ∧
    githubWebhookPost sampleCfg (fun s => s) sampleOracle sampleResendOracle emptyStore
      { transportBody := "\x7b\"zen\": \"hi\"\x7d",
        body := (jsonParse "\x7b\"zen\": \"hi\"\x7d").getD [],
        signature := some (expectedDigest (fun s => s) "\x7b\"zen\":\"hi\"\x7d"),
        event := .ping } = (emptyStore, [], 200) := by
  decide

/-- C5 amended: the route verifies an HMAC-SHA256 signature computed with the
shared secret over `JSON.stringify(req.body)` — the re-serialization of the
already-parsed request body, not the raw request bytes, which the body parser
has consumed — using the length-guarded constant-time comparison; any request
whose signature header is missing or differs from that digest is rejected
with 401, with no handler invoked, no side effect and no store change.  The
keyed HMAC is abstracted as the function `hmacHex`. -/
theorem C5_amended_reject_mismatched_signature (cfg : Config)
    (hmacHex : String → String) (prO : PROracle) (icO : ResendOracle)
    (db : Store) (req : WebhookRequest)
    (h : req.signature ≠ some (expectedDigest hmacHex (jsonStringify req.body))) :
    githubWebhookPost cfg hmacHex prO icO db req = (db, [], 401) := by
  have hv : verifySignature hmacHex (jsonStringify req.body) req.signature = false := by
    unfold verifySignature timingSafeEqualOrFalse
    cases hs : req.signature with
    | none => rfl
    | some s =>
      have hne : expectedDigest hmacHex (jsonStringify req.body) ≠ s :=
        fun he => h (by rw [hs, he])
      by_cases hl : (expectedDigest hmacHex (jsonStringify req.body)).length ≠ s.length
      · simp [hl]
      · simp only [hl, if_false]
        exact beq_eq_false_iff_ne.mpr hne
  simp [githubWebhookPost, hv]

/-- Witness for the amended C5: a request with no signature header is
rejected with 401. -/
theorem C5_witness :
    githubWebhookPost sampleCfg (fun s => s) sampleOracle sampleResendOracle emptyStore
      { transportBody := "\x7b\x7d", body := [], signature := none, event := .ping } =
      (emptyStore, [], 401) :=
  C5_amended_reject_mismatched_signature sampleCfg (fun s => s) sampleOracle
    sampleResendOracle emptyStore
    { transportBody := "\x7b\x7d", body := [], signature := none, event := .ping }
    (by simp)

/-- Uniqueness of TrackedPullRequest rows on the (repo, pr, user) triple. -/
def TripleUnique (db : Store) : Prop :=
  List.Pairwise (fun a b : PRRecord =>
    ¬(a.repo_full_name = b.repo_full_name ∧ a.pr_number = b.pr_number ∧
      a.github_user_id = b.github_user_id)) db.pr_records

/-- C6: `createPRRecord` keeps at most one TrackedPullRequest row per
(repository-full-name, pr-number, platform-user-id) triple, and inserting for
a triple that already exists updates the existing row by coalescing: the
incoming comment-id and agreement reference (marshalled through the JS
`|| null` at the SQL boundary) each replace the stored value exactly when
non-null (`Option.or`), otherwise the stored value is kept. -/
theorem C6_pr_upsert_coalesce (db : Store) (record : PRInsert)
    (huniq : TripleUnique db) :
    TripleUnique (createPRRecord db record) ∧
    (∀ r0, findPRRecord db record.repo_full_name record.pr_number
        record.github_user_id = some r0 →
      findPRRecord (createPRRecord db record) record.repo_full_name record.pr_number
          record.github_user_id =
        some { r0 with
          comment_id := (jsOrNullNat record.comment_id).or r0.comment_id
          concord_agreement_uid :=
            (jsOrNullStr record.concord_agreement_uid).or r0.concord_agreement_uid }) ∧
    (findPRRecord db record.repo_full_name record.pr_number
        record.github_user_id = none →
      findPRRecord (createPRRecord db record) record.repo_full_name record.pr_number
          record.github_user_id =
        some { repo_full_name := record.repo_full_name
               pr_number := record.pr_number
               github_username := record.github_username
               github_user_id := record.github_user_id
               comment_id := jsOrNullNat record.comment_id
               concord_agreement_uid := jsOrNullStr record.concord_agreement_uid }) := by
  have hpres : ∀ x : PRRecord,
      (if record.sameTriple x then
        { x with comment_id := (jsOrNullNat record.comment_id).or x.comment_id
                 concord_agreement_uid :=
                   (jsOrNullStr record.concord_agreement_uid).or x.concord_agreement_uid }
       else x).repo_full_name = x.repo_full_name ∧
      (if record.sameTriple x then
        { x with comment_id := (jsOrNullNat record.comment_id).or x.comment_id
                 concord_agreement_uid :=
                   (jsOrNullStr record.concord_agreement_uid).or x.concord_agreement_uid }
       else x).pr_number = x.pr_number ∧
      (if record.sameTriple x then
        { x with comment_id := (jsOrNullNat record.comment_id).or x.comment_id
                 concord_agreement_uid :=
                   (jsOrNullStr record.concord_agreement_uid).or x.concord_agreement_uid }
       else x).github_user_id = x.github_user_id := by
    intro x
    by_cases hx : record.sameTriple x <;> simp [hx]
  refine ⟨?_, ?_, ?_⟩
  · unfold TripleUnique createPRRecord
    cases hfind : findPRRecord db record.repo_full_name record.pr_number
        record.github_user_id with
    | some r0 =>
      simp only [Option.isSome_some, if_true]
      rw [List.pairwise_map]
      refine huniq.imp ?_
      intro a b hab habs
      exact hab ⟨(hpres a).1 ▸ (hpres b).1 ▸ habs.1,
                 (hpres a).2.1 ▸ (hpres b).2.1 ▸ habs.2.1,
                 (hpres a).2.2 ▸ (hpres b).2.2 ▸ habs.2.2⟩
    | none =>
      simp only [Option.isSome_none, Bool.false_eq_true, if_false]
      rw [List.pairwise_append]
      refine ⟨huniq, List.pairwise_singleton _ _, ?_⟩
      intro a ha b hb habs
      have hb' := List.mem_singleton.mp hb
      have hna := List.find?_eq_none.mp hfind a ha
      simp only [decide_eq_true_eq] at hna
      refine hna ?_
      rw [hb'] at habs
      exact ⟨habs.1, habs.2.1, habs.2.2⟩
  · intro r0 hfind
    unfold createPRRecord
    rw [hfind]
    simp only [Option.isSome_some, if_true]
    have hp0 : r0.repo_full_name = record.repo_full_name ∧
        r0.pr_number = record.pr_number ∧ r0.github_user_id = record.github_user_id := by
      have := List.find?_some hfind
      simpa using this
    unfold findPRRecord at hfind ⊢
    rw [show (({ cla_records := db.cla_records, pr_records := _ } : Store)).pr_records =
      _ from rfl]
    rw [find?_map_pred_inv]
    · rw [hfind]
      simp [PRInsert.sameTriple, hp0.1, hp0.2.1, hp0.2.2]
    · intro x
      by_cases hx : record.sameTriple x <;> simp [hx]
  · intro hfind
    unfold createPRRecord
    rw [hfind]
    simp only [Option.isSome_none, Bool.false_eq_true, if_false]
    unfold findPRRecord at hfind ⊢
    rw [show (({ cla_records := db.cla_records, pr_records := _ } : Store)).pr_records =
      _ from rfl]
    rw [List.find?_append, hfind]
    simp

/-- Witness for C6 at a concrete store holding one row for the triple: the
re-insert coalesces the comment id (incoming null keeps 5) and replaces the
agreement reference. -/
theorem C6_witness :
    TripleUnique (createPRRecord
      ⟨[], [{ repo_full_name := "org/repo", pr_number := 7, github_username := "alice",
              github_user_id := 42, comment_id := some 5,
              concord_agreement_uid := none }]⟩
      { repo_full_name := "org/repo", pr_number := 7, github_username := "alice",
        github_user_id := 42, comment_id := none,
        concord_agreement_uid := some "AG-9" }) ∧
    findPRRecord (createPRRecord
      ⟨[], [{ repo_full_name := "org/repo", pr_number := 7, github_username := "alice",
              github_user_id := 42, comment_id := some 5,
              concord_agreement_uid := none }]⟩
      { repo_full_name := "org/repo", pr_number := 7, github_username := "alice",
        github_user_id := 42, comment_id := none,
        concord_agreement_uid := some "AG-9" }) "org/repo" 7 42 =
      some { repo_full_name := "org/repo", pr_number := 7, github_username := "alice",
             github_user_id := 42, comment_id := some 5,
             concord_agreement_uid := some "AG-9" } := by
  have h := C6_pr_upsert_coalesce
    ⟨[], [{ repo_full_name := "org/repo", pr_number := 7, github_username := "alice",
            github_user_id := 42, comment_id := some 5,
            concord_agreement_uid := none }]⟩
    { repo_full_name := "org/repo", pr_number := 7, github_username := "alice",
      github_user_id := 42, comment_id := none,
      concord_agreement_uid := some "AG-9" }
    (List.pairwise_singleton _ _)
  exact ⟨h.1, h.2.1 _ rfl⟩

/-- A concrete `/cla resend` comment event, used by the C9 and C10 witnesses. -/
def sampleResendEvent : IssueCommentEvent :=
  { action := "created", commentBody := " /CLA Resend ",
    commentUser := { id := 9, login := "bob", name := none },
    isPullRequest := true, issueNumber := 7,
    issueUser := { id := 42, login := "alice", name := none },
    repoOwner := "org", repoName := "repo", repoFullName := "org/repo",
    installationId := some 1 }

/-- C9: a `/cla resend` command on a PR whose author has a `signed`
ContributorAgreement replies that no resend is needed and does nothing else:
the store is unchanged and the effect trace holds no agreement-service call,
no label and no commit-status change. -/
theorem C9_resend_already_signed (o : ResendOracle) (db : Store)
    (ev : IssueCommentEvent) (iid : Nat) (c : CLARecord)
    (hact : ev.action = "created")
    (hpr : ev.isPullRequest = true)
    (hbody : jsTrimLower ev.commentBody = "/cla resend")
    (hinst : ev.installationId = some iid)
    (hcla : findCLAByGitHubUserId db ev.issueUser.id = some c)
    (hst : c.status = .signed) :
    handleIssueCommentEvent o db ev =
      (db, [.createComment ev.repoOwner ev.repoName ev.issueNumber .alreadySigned]) := by
  simp [handleIssueCommentEvent, hact, hpr, hbody, hinst, hcla, hst]

/-- Witness for C9. -/
theorem C9_witness :
    handleIssueCommentEvent sampleResendOracle
      ⟨[{ github_username := "alice", github_user_id := 42, github_email := none,
          concord_agreement_uid := "AG-1", signed_at := some "T1", status := .signed }], []⟩
      sampleResendEvent =
      (⟨[{ github_username := "alice", github_user_id := 42, github_email := none,
           concord_agreement_uid := "AG-1", signed_at := some "T1", status := .signed }], []⟩,
       [.createComment "org" "repo" 7 .alreadySigned]) :=
  C9_resend_already_signed sampleResendOracle
    ⟨[{ github_username := "alice", github_user_id := 42, github_email := none,
        concord_agreement_uid := "AG-1", signed_at := some "T1", status := .signed }], []⟩
    sampleResendEvent 1
    { github_username := "alice", github_user_id := 42, github_email := none,
      concord_agreement_uid := "AG-1", signed_at := some "T1", status := .signed }
    rfl rfl (by decide) rfl (by decide) rfl

/-- C10: a `/cla resend` command on a PR whose author has an existing
ContributorAgreement with status `cancelled` or `expired` returns without any
action: no comment, no agreement-service call, no store change —
`needsNewAgreement` stays false and no branch of the handler matches. -/
theorem C10_resend_cancelled_expired_noop (o : ResendOracle) (db : Store)
    (ev : IssueCommentEvent) (iid : Nat) (c : CLARecord)
    (hact : ev.action = "created")
    (hpr : ev.isPullRequest = true)
    (hbody : jsTrimLower ev.commentBody = "/cla resend")
    (hinst : ev.installationId = some iid)
    (hcla : findCLAByGitHubUserId db ev.issueUser.id = some c)
    (hst : c.status = .cancelled ∨ c.status = .expired) :
    handleIssueCommentEvent o db ev = (db, []) := by
  cases hst with
  | inl h => simp [handleIssueCommentEvent, hact, hpr, hbody, hinst, hcla, h]
  | inr h => simp [handleIssueCommentEvent, hact, hpr, hbody, hinst, hcla, h]

/-- Witness for C10 with a `cancelled` record. -/
theorem C10_witness :
    handleIssueCommentEvent sampleResendOracle
      ⟨[{ github_username := "alice", github_user_id := 42, github_email := none,
          concord_agreement_uid := "AG-1", signed_at := none, status := .cancelled }], []⟩
      sampleResendEvent =
      (⟨[{ github_username := "alice", github_user_id := 42, github_email := none,
           concord_agreement_uid := "AG-1", signed_at := none, status := .cancelled }], []⟩,
       []) :=
  C10_resend_cancelled_expired_noop sampleResendOracle
    ⟨[{ github_username := "alice", github_user_id := 42, github_email := none,
        concord_agreement_uid := "AG-1", signed_at := none, status := .cancelled }], []⟩
    sampleResendEvent 1
    { github_username := "alice", github_user_id := 42, github_email := none,
      concord_agreement_uid := "AG-1", signed_at := none, status := .cancelled }
    rfl rfl (by decide) rfl (by decide) (Or.inl rfl)

/-- C3: on an `executed` event for a contributor with tracked PR rows, the
fan-out iterates every row inside its own `try`/`catch`; for any row whose
own platform calls succeed, the success commit status and the pending-label
removal appear in the effect trace no matter how the other rows' calls fail —
the per-item oracle for every other row is unconstrained. -/
theorem C3_fanout_isolated (o : ExecOracle) (db : Store) (agreementUid : String)
    (c : CLARecord) (r : PRRecord) (instId : Nat) (sha : String)
    (hc : findCLAByAgreementUid db agreementUid = some c)
    (hr : r ∈ findPRRecordsByGitHubUserId db c.github_user_id)
    (hinst : (o.items r).installationId = some instId)
    (hfetch : (o.items r).fetchPR = .ok sha)
    (hlabel : (o.items r).removeLabelOk = true)
    (hstatus : (o.items r).statusOk = true) :
    Effect.removePendingLabel (((splitOnSlash r.repo_full_name).get? 0).getD "")
        (((splitOnSlash r.repo_full_name).get? 1).getD "") r.pr_number ∈
      (handleAgreementExecuted o db agreementUid none).2 ∧
    Effect.createStatus (((splitOnSlash r.repo_full_name).get? 0).getD "")
        (((splitOnSlash r.repo_full_name).get? 1).getD "") sha true ∈
      (handleAgreementExecuted o db agreementUid none).2 := by
  have hitem : Effect.removePendingLabel (((splitOnSlash r.repo_full_name).get? 0).getD "")
        (((splitOnSlash r.repo_full_name).get? 1).getD "") r.pr_number ∈
        (updatePRAfterSigning (o.items r) r).1 ∧
      Effect.createStatus (((splitOnSlash r.repo_full_name).get? 0).getD "")
        (((splitOnSlash r.repo_full_name).get? 1).getD "") sha true ∈
        (updatePRAfterSigning (o.items r) r).1 := by
    cases hcid : r.comment_id <;>
      cases hcu : (o.items r).commentUpdateOk <;>
        simp [updatePRAfterSigning, hinst, hfetch, hlabel, hstatus, hcid, hcu]
  have hprs : findPRRecordsByGitHubUserId
      (updateCLAStatusByAgreementUid db c.concord_agreement_uid .signed (some o.now))
      c.github_user_id = findPRRecordsByGitHubUserId db c.github_user_id := rfl
  have hne : ¬ (findPRRecordsByGitHubUserId db c.github_user_id).length = 0 := by
    intro h0
    rw [List.length_eq_zero] at h0
    rw [h0] at hr
    exact absurd hr (List.not_mem_nil r)
  have hmem : ∀ e, e ∈ (updatePRAfterSigning (o.items r) r).1 →
      e ∈ runFanout o.items (findPRRecordsByGitHubUserId db c.github_user_id) := by
    intro e he
    unfold runFanout
    exact List.mem_flatten.mpr ⟨(updatePRAfterSigning (o.items r) r).1,
      List.mem_map_of_mem _ hr, he⟩
  have hred : (handleAgreementExecuted o db agreementUid none).2 =
      runFanout o.items (findPRRecordsByGitHubUserId db c.github_user_id) := by
    simp [handleAgreementExecuted, hc, hprs, hne]
  rw [hred]
  exact ⟨hmem _ hitem.1, hmem _ hitem.2⟩

/-- Witness for C3: two tracked PRs, the first one's label removal throws,
the second still gets its success status and label removal. -/
theorem C3_witness :
    Effect.removePendingLabel "org" "repoB" 3 ∈
      (handleAgreementExecuted
        ⟨"T1", fun p => if p.repo_full_name = "org/repoA" then
            ⟨some 1, .ok "shaA", true, false, true⟩
          else ⟨some 2, .ok "shaB", true, true, true⟩⟩
        ⟨[{ github_username := "alice", github_user_id := 42, github_email := none,
            concord_agreement_uid := "AG-1", signed_at := none, status := .pending }],
         [{ repo_full_name := "org/repoA", pr_number := 7, github_username := "alice",
            github_user_id := 42, comment_id := some 5, concord_agreement_uid := some "AG-1" },
          { repo_full_name := "org/repoB", pr_number := 3, github_username := "alice",
            github_user_id := 42, comment_id := none, concord_agreement_uid := some "AG-1" }]⟩
        "AG-1" none).2 ∧
    Effect.createStatus "org" "repoB" "shaB" true ∈
      (handleAgreementExecuted
        ⟨"T1", fun p => if p.repo_full_name = "org/repoA" then
            ⟨some 1, .ok "shaA", true, false, true⟩
          else ⟨some 2, .ok "shaB", true, true, true⟩⟩
        ⟨[{ github_username := "alice", github_user_id := 42, github_email := none,
            concord_agreement_uid := "AG-1", signed_at := none, status := .pending }],
         [{ repo_full_name := "org/repoA", pr_number := 7, github_username := "alice",
            github_user_id := 42, comment_id := some 5, concord_agreement_uid := some "AG-1" },
          { repo_full_name := "org/repoB", pr_number := 3, github_username := "alice",
            github_user_id := 42, comment_id := none, concord_agreement_uid := some "AG-1" }]⟩
        "AG-1" none).2 := by
  have h := C3_fanout_isolated
    ⟨"T1", fun p => if p.repo_full_name = "org/repoA" then
        ⟨some 1, .ok "shaA", true, false, true⟩
      else ⟨some 2, .ok "shaB", true, true, true⟩⟩
    ⟨[{ github_username := "alice", github_user_id := 42, github_email := none,
        concord_agreement_uid := "AG-1", signed_at := none, status := .pending }],
     [{ repo_full_name := "org/repoA", pr_number := 7, github_username := "alice",
        github_user_id := 42, comment_id := some 5, concord_agreement_uid := some "AG-1" },
      { repo_full_name := "org/repoB", pr_number := 3, github_username := "alice",
        github_user_id := 42, comment_id := none, concord_agreement_uid := some "AG-1" }]⟩
    "AG-1"
    { github_username := "alice", github_user_id := 42, github_email := none,
      concord_agreement_uid := "AG-1", signed_at := none, status := .pending }
    { repo_full_name := "org/repoB", pr_number := 3, github_username := "alice",
      github_user_id := 42, comment_id := none, concord_agreement_uid := some "AG-1" }
    2 "shaB" rfl (by decide) rfl rfl rfl rfl
  exact h

/-- A stored pending agreement for the completion-reconciler claims. -/
def pendingRec : CLARecord :=
  { github_username := "alice", github_user_id := 42, github_email := none,
    concord_agreement_uid := "AG-1", signed_at := none, status := .pending }

/-- Completion oracle stamping time `"T1"`. -/
def execOracleA : ExecOracle := ⟨"T1", fun _ => ⟨none, .error (), true, true, true⟩⟩

/-- Completion oracle stamping time `"T2"`. -/
def execOracleB : ExecOracle := ⟨"T2", fun _ => ⟨none, .error (), true, true, true⟩⟩

/-- C2 counterexample: after `new_signature` at time `"T1"` the record is
`signed` with signed timestamp `"T1"`; a subsequent `executed` event is not
the no-op the claim asserts — it rewrites the stored record, replacing the
signed timestamp by `"T2"`. -/
theorem C2_counterexample :
    (findCLAByAgreementUid (handleNewSignature execOracleA ⟨[pendingRec], []⟩ "AG-1").1
        "AG-1").map (fun c => c.status) = some .signed ∧
    (findCLAByAgreementUid (handleNewSignature execOracleA ⟨[pendingRec], []⟩ "AG-1").1
        "AG-1").map (fun c => c.signed_at) = some (some "T1") ∧
    (findCLAByAgreementUid (handleAgreementExecuted execOracleB
        (handleNewSignature execOracleA ⟨[pendingRec], []⟩ "AG-1").1 "AG-1" none).1
        "AG-1").map (fun c => c.signed_at) = some (some "T2") ∧
    (handleAgreementExecuted execOracleB
        (handleNewSignature execOracleA ⟨[pendingRec], []⟩ "AG-1").1 "AG-1" none).1 ≠
      (handleNewSignature execOracleA ⟨[pendingRec], []⟩ "AG-1").1 := by
  decide

/-- C2 amended: sending `new_signature` and `executed` in either order
produces exactly one status transition to `signed`.  A second `new_signature`
on an already-signed record is a no-op (store unchanged, no effects); but a
second `executed` event is unguarded: it re-applies the signed update,
overwriting the stored signed timestamp with its own processing time while
the status stays `signed`. -/
theorem C2_amended_completion_idempotence (oA oB : ExecOracle) (db : Store)
    (agreementUid : String) (c : CLARecord)
    (hc : findCLAByAgreementUid db agreementUid = some c)
    (hAne : oA.now ≠ "") (hBne : oB.now ≠ "") :
    ((findCLAByAgreementUid (handleAgreementExecuted oA db agreementUid none).1
        agreementUid).map (fun x => x.status) = some .signed ∧
     (findCLAByAgreementUid (handleAgreementExecuted oA db agreementUid none).1
        agreementUid).map (fun x => x.signed_at) = some (some oA.now) ∧
     handleNewSignature oB (handleAgreementExecuted oA db agreementUid none).1
        agreementUid = ((handleAgreementExecuted oA db agreementUid none).1, [])) ∧
    (¬ c.status = .signed →
     (findCLAByAgreementUid (handleNewSignature oA db agreementUid).1
        agreementUid).map (fun x => x.status) = some .signed ∧
     (findCLAByAgreementUid (handleNewSignature oA db agreementUid).1
        agreementUid).map (fun x => x.signed_at) = some (some oA.now) ∧
     (findCLAByAgreementUid (handleAgreementExecuted oB
        (handleNewSignature oA db agreementUid).1 agreementUid none).1
        agreementUid).map (fun x => x.status) = some .signed ∧
     (findCLAByAgreementUid (handleAgreementExecuted oB
        (handleNewSignature oA db agreementUid).1 agreementUid none).1
        agreementUid).map (fun x => x.signed_at) = some (some oB.now)) := by
  have hkey : c.concord_agreement_uid = agreementUid := by
    simpa using List.find?_some hc
  have hnowA : jsOrNullStr (some oA.now) = some oA.now := by simp [jsOrNullStr, hAne]
  have hnowB : jsOrNullStr (some oB.now) = some oB.now := by simp [jsOrNullStr, hBne]
  have hexA : (handleAgreementExecuted oA db agreementUid none).1 =
      updateCLAStatusByAgreementUid db agreementUid .signed (some oA.now) := by
    simp [handleAgreementExecuted, hc, hkey, jsOrNullStr, apply_ite]
  have hfindA := findCLA_after_updateStatus db agreementUid .signed (some oA.now) c hc
  constructor
  · refine ⟨?_, ?_, ?_⟩
    · rw [hexA, hfindA]; simp
    · rw [hexA, hfindA]; simp [hnowA]
    · rw [hexA]
      simp [handleNewSignature, hfindA]
  · intro hpend
    have hpend' : (c.status == CLAStatus.signed) = false := by
      simpa using hpend
    have hnsA : (handleNewSignature oA db agreementUid).1 =
        updateCLAStatusByAgreementUid db agreementUid .signed (some oA.now) := by
      simp [handleNewSignature, hc, hpend', apply_ite]
    have hfind2 := findCLA_after_updateStatus db agreementUid .signed (some oA.now) c hc
    have hexB : (handleAgreementExecuted oB
        (updateCLAStatusByAgreementUid db agreementUid .signed (some oA.now))
        agreementUid none).1 =
        updateCLAStatusByAgreementUid
          (updateCLAStatusByAgreementUid db agreementUid .signed (some oA.now))
          agreementUid .signed (some oB.now) := by
      simp [handleAgreementExecuted, hfind2, hkey, jsOrNullStr, apply_ite]
    have hfind3 := findCLA_after_updateStatus
      (updateCLAStatusByAgreementUid db agreementUid .signed (some oA.now))
      agreementUid .signed (some oB.now) _ hfind2
    refine ⟨?_, ?_, ?_, ?_⟩
    · rw [hnsA, hfind2]; simp
    · rw [hnsA, hfind2]; simp [hnowA]
    · rw [hnsA, hexB, hfind3]; simp
    · rw [hnsA, hexB, hfind3]; simp [hnowB]

/-- Witness for the amended C2 at a concrete pending record. -/
theorem C2_witness :
    (((findCLAByAgreementUid (handleAgreementExecuted execOracleA ⟨[pendingRec], []⟩
        "AG-1" none).1 "AG-1").map (fun x => x.status) = some .signed ∧
     (findCLAByAgreementUid (handleAgreementExecuted execOracleA ⟨[pendingRec], []⟩
        "AG-1" none).1 "AG-1").map (fun x => x.signed_at) = some (some "T1") ∧
     handleNewSignature execOracleB (handleAgreementExecuted execOracleA
        ⟨[pendingRec], []⟩ "AG-1" none).1 "AG-1" =
       ((handleAgreementExecuted execOracleA ⟨[pendingRec], []⟩ "AG-1" none).1, [])) ∧
    ((findCLAByAgreementUid (handleNewSignature execOracleA ⟨[pendingRec], []⟩
        "AG-1").1 "AG-1").map (fun x => x.status) = some .signed ∧
     (findCLAByAgreementUid (handleNewSignature execOracleA ⟨[pendingRec], []⟩
        "AG-1").1 "AG-1").map (fun x => x.signed_at) = some (some "T1") ∧
     (findCLAByAgreementUid (handleAgreementExecuted execOracleB
        (handleNewSignature execOracleA ⟨[pendingRec], []⟩ "AG-1").1 "AG-1" none).1
        "AG-1").map (fun x => x.status) = some .signed ∧
     (findCLAByAgreementUid (handleAgreementExecuted execOracleB
        (handleNewSignature execOracleA ⟨[pendingRec], []⟩ "AG-1").1 "AG-1" none).1
        "AG-1").map (fun x => x.signed_at) = some (some "T2"))) := by
  have h := C2_amended_completion_idempotence execOracleA execOracleB ⟨[pendingRec], []⟩
    "AG-1" pendingRec rfl (by decide) (by decide)
  exact ⟨h.1, h.2 (by decide)⟩

/-- C8 counterexample: a record `signed` at `"T1"` loses its signed timestamp
when a `cancelled` agreement event is processed — `updateCLAStatusByAgreementUid`
binds `signedAt || null`, writing NULL on the two-argument call. -/
theorem C8_counterexample :
    (findCLAByAgreementUid
        (⟨[{ github_username := "alice", github_user_id := 42, github_email := none,
             concord_agreement_uid := "AG-1", signed_at := some "T1",
             status := .signed }], []⟩ : Store) "AG-1").map (fun c => c.signed_at) =
      some (some "T1") ∧
    (findCLAByAgreementUid
        (handleAgreementCancelled
          ⟨[{ github_username := "alice", github_user_id := 42, github_email := none,
              concord_agreement_uid := "AG-1", signed_at := some "T1",
              status := .signed }], []⟩ "AG-1").1 "AG-1").map (fun c => c.signed_at) =
      some none := by
  decide

/-- C8 amended: the signed timestamp is written (non-null) only by the
signature-completion handlers, but every status update overwrites the
`signed_at` column: processing a `cancelled` event clears it to null, and
re-processing `executed` for an already-signed record overwrites it with the
new processing time; only the guarded `new_signature` no-op leaves the stored
record untouched. -/
theorem C8_amended_signed_at_writes (o : ExecOracle) (db : Store)
    (agreementUid : String) (c : CLARecord)
    (hc : findCLAByAgreementUid db agreementUid = some c)
    (hnow : o.now ≠ "") :
    (findCLAByAgreementUid (handleAgreementCancelled db agreementUid).1 agreementUid =
      some { c with status := .cancelled, signed_at := none }) ∧
    (c.status = .signed → handleNewSignature o db agreementUid = (db, [])) ∧
    (findCLAByAgreementUid (handleAgreementExecuted o db agreementUid none).1
        agreementUid = some { c with status := .signed, signed_at := some o.now }) := by
  have hkey : c.concord_agreement_uid = agreementUid := by
    simpa using List.find?_some hc
  refine ⟨?_, ?_, ?_⟩
  · have := findCLA_after_updateStatus db agreementUid .cancelled none c hc
    simpa [handleAgreementCancelled, jsOrNullStr] using this
  · intro hsigned
    have hsigned' : (c.status == CLAStatus.signed) = true := by simpa using hsigned
    simp [handleNewSignature, hc, hsigned']
  · have hex : (handleAgreementExecuted o db agreementUid none).1 =
        updateCLAStatusByAgreementUid db agreementUid .signed (some o.now) := by
      simp [handleAgreementExecuted, hc, hkey, jsOrNullStr, apply_ite]
    have := findCLA_after_updateStatus db agreementUid .signed (some o.now) c hc
    rw [hex, this]
    simp [jsOrNullStr, hnow]

/-- Witness for the amended C8 at a record signed at `"T1"`. -/
theorem C8_witness :
    (findCLAByAgreementUid (handleAgreementCancelled
        ⟨[{ github_username := "alice", github_user_id := 42, github_email := none,
            concord_agreement_uid := "AG-1", signed_at := some "T1",
            status := .signed }], []⟩ "AG-1").1 "AG-1" =
      some { github_username := "alice", github_user_id := 42, github_email := none,
             concord_agreement_uid := "AG-1", signed_at := none,
             status := .cancelled }) ∧
    (handleNewSignature execOracleB
        ⟨[{ github_username := "alice", github_user_id := 42, github_email := none,
            concord_agreement_uid := "AG-1", signed_at := some "T1",
            status := .signed }], []⟩ "AG-1" =
      (⟨[{ github_username := "alice", github_user_id := 42, github_email := none,
           concord_agreement_uid := "AG-1", signed_at := some "T1",
           status := .signed }], []⟩, [])) ∧
    (findCLAByAgreementUid (handleAgreementExecuted execOracleB
        ⟨[{ github_username := "alice", github_user_id := 42, github_email := none,
            concord_agreement_uid := "AG-1", signed_at := some "T1",
            status := .signed }], []⟩ "AG-1" none).1 "AG-1" =
      some { github_username := "alice", github_user_id := 42, github_email := none,
             concord_agreement_uid := "AG-1", signed_at := some "T2",
             status := .signed }) := by
  have h := C8_amended_signed_at_writes execOracleB
    ⟨[{ github_username := "alice", github_user_id := 42, github_email := none,
        concord_agreement_uid := "AG-1", signed_at := some "T1",
        status := .signed }], []⟩ "AG-1"
    { github_username := "alice", github_user_id := 42, github_email := none,
      concord_agreement_uid := "AG-1", signed_at := some "T1", status := .signed }
    rfl (by decide)
  exact ⟨h.1, h.2.1 rfl, h.2.2⟩

end CLA
